import Mathlib

/-!
Shallow embedding of the hook-generation web app (src/App.tsx, src/unnamed/part_001,
src/unnamed/part_000) for checking the natural-language specification.

JavaScript string builtins used by the source (String.prototype.trim, split,
toLowerCase, includes, replace with a global pattern, JSON.parse and
JSON.stringify restricted to arrays of strings) are modelled explicitly over
`List Char`.  The model of JSON.parse covers exactly the values the source
declares and the response schema requests (arrays of strings, with the
standard one-character escapes; `\u` escapes and engine-specific error
messages are outside the model).  React state updates are modelled as a pure
state transition; the external generative service is a parameter giving the
outcome of the single call an operation can make.
-/

namespace HookGen

/-- Record produced for each adapted hook (src/unnamed/part_000, `GeneratedHook`). -/
structure GeneratedHook where
  id : Nat
  originalTemplateId : Nat
  text : String
deriving DecidableEq, Repr

/-- Form fields (src/unnamed/part_000, `FormData`). -/
structure FormData where
  niche : String
  topic : String
  audience : String
deriving DecidableEq, Repr

/-- The React state owned by `generateHooks` in src/App.tsx:
`generatedHooks`, `loading`, `error`, `batchIndex`. -/
structure AppState where
  generatedHooks : List GeneratedHook
  loading : Bool
  error : Option String
  batchIndex : Nat
deriving DecidableEq, Repr

/-- Initial React state (useState initialisers in src/App.tsx). -/
def AppState.init : AppState :=
  { generatedHooks := [], loading := false, error := none, batchIndex := 0 }

/-- Outcome of the single external call `ai.models.generateContent`:
either the awaited promise rejects with an error whose message is `msg`,
or it resolves with `response.text` (which may be absent/empty). -/
inductive CallResult where
  | thrown (msg : String)
  | returned (text : Option String)
deriving DecidableEq, Repr

/-- Instrumentation of the one external call an operation can make:
the slice offset, the templates sent, and the React state at the moment
the call is issued. -/
structure Request where
  start : Nat
  templates : List String
  stateAtCall : AppState
deriving DecidableEq, Repr

/-- Result of one `generateHooks` invocation: the final state and the
external call made, if any. -/
structure GenResult where
  state : AppState
  request : Option Request
deriving DecidableEq, Repr

/-! ### Models of the JavaScript string builtins used by the source -/

/-- Whitespace recognised by the model of `String.prototype.trim`
(the source only ever trims ASCII text). -/
def wsChar (c : Char) : Bool :=
  c = ' ' || c = '\t' || c = '\n' || c = '\r'

/-- Drop leading whitespace. -/
def trimLeftL (l : List Char) : List Char := l.dropWhile wsChar

/-- Drop trailing whitespace. -/
def trimRightL (l : List Char) : List Char := (l.reverse.dropWhile wsChar).reverse

/-- Model of `String.prototype.trim`. -/
def jsTrim (l : List Char) : List Char := trimRightL (trimLeftL l)

/-- Model of `String.prototype.split(',')`. -/
def splitCommaAux (cur : List Char) : List Char → List (List Char)
  | [] => [cur.reverse]
  | c :: rest =>
    if c = ',' then cur.reverse :: splitCommaAux [] rest
    else splitCommaAux (c :: cur) rest

/-- Split a character list at every comma, as `split(',')` does. -/
def splitComma (l : List Char) : List (List Char) := splitCommaAux [] l

/-- Model of `String.prototype.toLowerCase` on the ASCII text the source uses. -/
def toLowerL (l : List Char) : List Char := l.map Char.toLower

/-- Model of `String.prototype.includes` (substring test). -/
def hasSub (pat : List Char) : List Char → Bool
  | [] => pat.isEmpty
  | c :: rest => pat.isPrefixOf (c :: rest) || hasSub pat rest

/-- Fuelled worker for `String.prototype.replace` with a global pattern:
scan left to right, replacing each non-overlapping occurrence of `pat`
by `rep`.  Fuel at least the input length always suffices because every
step consumes at least one character. -/
def jsReplaceAllF (pat rep : List Char) : Nat → List Char → List Char
  | _, [] => []
  | 0, l => l
  | fuel + 1, c :: rest =>
    if pat.isPrefixOf (c :: rest) ∧ pat ≠ [] then
      rep ++ jsReplaceAllF pat rep fuel (rest.drop (pat.length - 1))
    else
      c :: jsReplaceAllF pat rep fuel rest

/-- Model of `s.replace(/pat/g, rep)` for a literal pattern `pat`. -/
def jsReplaceAll (pat rep l : List Char) : List Char :=
  jsReplaceAllF pat rep l.length l

/-! ### Model of `JSON.parse` restricted to arrays of strings

The source annotates the parse result as `string[]` and configures the
service with an array-of-strings response schema, so the model covers
JSON arrays of strings (with the standard single-character escapes) and
treats every other reply as a parse failure. -/

/-- Decode a one-character JSON escape (`\u` escapes are outside the model). -/
def unescapeChar (e : Char) : Option Char :=
  if e = 'n' then some '\n'
  else if e = 't' then some '\t'
  else if e = 'r' then some '\r'
  else if e = 'b' then some (Char.ofNat 0x08)
  else if e = 'f' then some (Char.ofNat 0x0C)
  else if e = '"' ∨ e = '\\' ∨ e = '/' then some e
  else none

/-- Parse the body of a JSON string after the opening quote; return the
decoded content and the input remaining after the closing quote. -/
def parseStringBody : List Char → Option (List Char × List Char)
  | [] => none
  | c :: rest =>
    if c = '"' then some ([], rest)
    else if c = '\\' then
      match rest with
      | [] => none
      | e :: rest2 =>
        match unescapeChar e with
        | none => none
        | some u =>
          match parseStringBody rest2 with
          | none => none
          | some (s, r) => some (u :: s, r)
    else if c.toNat < 32 then none
    else
      match parseStringBody rest with
      | none => none
      | some (s, r) => some (c :: s, r)

/-- Skip JSON whitespace. -/
def skipWs (l : List Char) : List Char := l.dropWhile wsChar

/-- Parse the comma-separated elements of a non-empty JSON string array,
starting just after the opening bracket and consuming the closing bracket. -/
def parseElems : Nat → List Char → Option (List String × List Char)
  | 0, _ => none
  | fuel + 1, l =>
    match skipWs l with
    | [] => none
    | c :: rest =>
      if c = '"' then
        match parseStringBody rest with
        | none => none
        | some (s, r) =>
          match skipWs r with
          | [] => none
          | d :: r2 =>
            if d = ',' then
              match parseElems fuel r2 with
              | none => none
              | some (xs, rr) => some (String.mk s :: xs, rr)
            else if d = ']' then some ([String.mk s], r2)
            else none
      else none

/-- Model of `JSON.parse` on a reply expected to be a JSON array of strings:
`some` exactly when the whole input is such an array. -/
def parseStringArray (l : List Char) : Option (List String) :=
  match skipWs l with
  | [] => none
  | c :: rest =>
    if c = '[' then
      match skipWs rest with
      | [] => none
      | d :: r2 =>
        if d = ']' then
          if skipWs r2 = [] then some [] else none
        else
          match parseElems (l.length + 1) rest with
          | none => none
          | some (xs, r) => if skipWs r = [] then some xs else none
    else none

/-! ### A canonical JSON renderer, used for the deterministic stub service -/

/-- Escape a character for a canonical JSON string (the renderer is only
applied to texts without control characters). -/
def escapeChar (c : Char) : List Char :=
  if c = '"' then ['\\', '"']
  else if c = '\\' then ['\\', '\\']
  else [c]

/-- Render one string as a canonical JSON string literal. -/
def renderStr (s : String) : List Char :=
  '"' :: (s.toList.map escapeChar).flatten ++ ['"']

/-- Render the elements of a non-empty list, separated by commas. -/
def renderElems : List String → List Char
  | [] => []
  | [t] => renderStr t
  | t :: ts => renderStr t ++ ',' :: renderElems ts

/-- Render a list of strings as a canonical JSON array. -/
def renderArr (ts : List String) : List Char :=
  if ts.isEmpty then ['[', ']'] else '[' :: renderElems ts ++ [']']

/-- Strings whose characters need no escaping machinery beyond the
renderer: no control characters below space. -/
def SafeStr (s : String) : Prop := ∀ c ∈ s.toList, 32 ≤ c.toNat

instance (s : String) : Decidable (SafeStr s) := by
  unfold SafeStr; infer_instance

/-! ### Messages (src/App.tsx) -/

/-- Validation message for missing niche/topic (src/App.tsx line 114). -/
def missingFieldsMsg : String := "Por favor completa el nicho y la idea principal."

/-- Generic failure message (src/App.tsx line 203; identical in part_001). -/
def genericErrorMsg : String := "Hubo un error generando los hooks. Por favor intenta de nuevo."

/-- Configuration message for a missing API key (src/App.tsx line 206). -/
def apiKeyMissingMsg : String :=
  "Error de Configuración: Falta la API KEY en Vercel. Ve a Settings > Environment Variables y agrega \x27API_KEY\x27."

/-- Rate-limit message (src/App.tsx line 208). -/
def rateLimitMsg : String :=
  "⏳ Límite de tráfico gratuito alcanzado. El sistema está recargando energía. Por favor espera 10 segundos e intenta nuevamente."

/-- Invalid-credential message (src/App.tsx line 210). -/
def invalidKeyMsg : String :=
  "Error de Acceso: La API Key configurada no es válida. Revisa tu configuración en Vercel."

/-- Configuration message of the older variant (src/unnamed/part_001 line 127). -/
def apiKeyMissingMsgOld : String :=
  "Falta la API KEY en Vercel. Ve a Settings > Environment Variables y agrega \x27API_KEY\x27."

/-- Rate-limit message of the older variant (src/unnamed/part_001 line 129). -/
def rateLimitMsgOld : String :=
  "¡Mucha creatividad por hoy! Hemos alcanzado el límite gratuito momentáneo. Espera 30 segundos e intenta de nuevo."

/-- Invalid-credential message of the older variant (src/unnamed/part_001 line 131). -/
def invalidKeyMsgOld : String :=
  "La API Key no es válida o ha expirado. Por favor verifica en Vercel."

/-- Error classification in the catch block of src/App.tsx (lines 201-213).
`msg` is the thrown error message; the `toString()` substring checks are
modelled as substring checks on the message. -/
def classifyError (msg : String) : String :=
  if msg = "API_KEY_MISSING" then apiKeyMissingMsg
  else if hasSub "429".toList msg.toList || hasSub "Too Many Requests".toList msg.toList then
    rateLimitMsg
  else if hasSub "403".toList msg.toList || hasSub "API key not valid".toList msg.toList then
    invalidKeyMsg
  else genericErrorMsg

/-- Error classification of the older variant (src/unnamed/part_001 lines 120-134). -/
def classifyErrorOld (msg : String) : String :=
  if msg = "API_KEY_MISSING" then apiKeyMissingMsgOld
  else if hasSub "429".toList msg.toList || hasSub "Too Many Requests".toList msg.toList then
    rateLimitMsgOld
  else if hasSub "403".toList msg.toList || hasSub "API key not valid".toList msg.toList then
    invalidKeyMsgOld
  else genericErrorMsg

/-! ### The generation workflow (src/App.tsx, `generateHooks`) -/

/-- Page size (src/App.tsx line 28, `BATCH_SIZE`). -/
def BATCH_SIZE : Nat := 10

/-- The check of `getAIClient` (src/App.tsx lines 100-110): the key is
trimmed and the call throws `API_KEY_MISSING` when it is empty or the
literal string "undefined". -/
def apiKeyMissing (rawKey : String) : Bool :=
  jsTrim rawKey.toList == [] || jsTrim rawKey.toList == "undefined".toList

/-- Fence patterns stripped by the fallback cleanup (src/App.tsx line 183). -/
def fenceJsonPat : List Char := "```json".toList

/-- The bare code-fence marker. -/
def fencePat : List Char := "```".toList

/-- The fallback cleanup (src/App.tsx line 183):
`responseText.replace(/```json/g, '').replace(/```/g, '').trim()`. -/
def cleanResp (l : List Char) : List Char :=
  jsTrim (jsReplaceAll fencePat [] (jsReplaceAll fenceJsonPat [] l))

/-- `adaptedStrings.map((text, index) => ({ id: start + index,
originalTemplateId: start + index, text }))` (src/App.tsx lines 187-191),
written as a recursion that advances the id with the position. -/
def mkHooks : Nat → List String → List GeneratedHook
  | _, [] => []
  | start, t :: ts => { id := start, originalTemplateId := start, text := t } :: mkHooks (start + 1) ts

/-- The success tail of `generateHooks` (src/App.tsx lines 187-199 and the
`finally` at 214-216): build the new hooks, then append/increment for
load-more or replace/reset for a fresh call, and clear the loading flag. -/
def finishSuccess (s2 : AppState) (start : Nat) (strs : List String)
    (isLoadMore : Bool) : AppState :=
  if isLoadMore then
    { s2 with generatedHooks := s2.generatedHooks ++ mkHooks start strs,
              batchIndex := s2.batchIndex + 1, loading := false }
  else
    { s2 with generatedHooks := mkHooks start strs, batchIndex := 0, loading := false }

/-- One invocation of `generateHooks` (src/App.tsx lines 112-217) as a pure
transition.  `rawHooks` stands for the fixed `RAW_HOOKS` list (its module,
constants.ts, is not part of the sources; every claim quantifies over the
template list).  `svc` gives the outcome of the single external call as a
function of the templates sent; the thrown-error message of a failed
`JSON.parse` is modelled as the generic classification result, engine
message text being outside the model. -/
def generateHooks (rawHooks : List String) (apiKey : String)
    (svc : List String → CallResult) (fd : FormData)
    (isLoadMore : Bool) (s : AppState) : GenResult :=
  if fd.niche = "" ∨ fd.topic = "" then
    { state := { s with error := some missingFieldsMsg }, request := none }
  else
    let s1 : AppState := { s with loading := true, error := none }
    if apiKeyMissing apiKey then
      { state := { s1 with loading := false, error := some (classifyError "API_KEY_MISSING") },
        request := none }
    else
      let start := if isLoadMore then (s.batchIndex + 1) * BATCH_SIZE else 0
      let s2 := if isLoadMore then s1 else { s1 with generatedHooks := [], batchIndex := 0 }
      let templatesToAdapt := (rawHooks.drop start).take BATCH_SIZE
      if templatesToAdapt = [] then
        { state := { s2 with loading := false }, request := none }
      else
        let req : Request := { start := start, templates := templatesToAdapt, stateAtCall := s2 }
        match svc templatesToAdapt with
        | .thrown msg =>
          { state := { s2 with loading := false, error := some (classifyError msg) },
            request := some req }
        | .returned none =>
          { state := { s2 with loading := false, error := some (classifyError "No response from AI") },
            request := some req }
        | .returned (some txt) =>
          if txt = "" then
            { state := { s2 with loading := false, error := some (classifyError "No response from AI") },
              request := some req }
          else
            match parseStringArray txt.toList with
            | some strs =>
              { state := finishSuccess s2 start strs isLoadMore, request := some req }
            | none =>
              match parseStringArray (cleanResp txt.toList) with
              | some strs =>
                { state := finishSuccess s2 start strs isLoadMore, request := some req }
              | none =>
                { state := { s2 with loading := false, error := some genericErrorMsg },
                  request := some req }

/-- One invocation of the older `generateHooks` (src/unnamed/part_001 lines
38-138): identical control flow except that the reply is parsed once with no
fence-stripping fallback, and the catch block uses the older messages. -/
def generateHooksOld (rawHooks : List String) (apiKey : String)
    (svc : List String → CallResult) (fd : FormData)
    (isLoadMore : Bool) (s : AppState) : GenResult :=
  if fd.niche = "" ∨ fd.topic = "" then
    { state := { s with error := some missingFieldsMsg }, request := none }
  else
    let s1 : AppState := { s with loading := true, error := none }
    if apiKeyMissing apiKey then
      { state := { s1 with loading := false, error := some (classifyErrorOld "API_KEY_MISSING") },
        request := none }
    else
      let start := if isLoadMore then (s.batchIndex + 1) * BATCH_SIZE else 0
      let s2 := if isLoadMore then s1 else { s1 with generatedHooks := [], batchIndex := 0 }
      let templatesToAdapt := (rawHooks.drop start).take BATCH_SIZE
      if templatesToAdapt = [] then
        { state := { s2 with loading := false }, request := none }
      else
        let req : Request := { start := start, templates := templatesToAdapt, stateAtCall := s2 }
        match svc templatesToAdapt with
        | .thrown msg =>
          { state := { s2 with loading := false, error := some (classifyErrorOld msg) },
            request := some req }
        | .returned none =>
          { state := { s2 with loading := false, error := some (classifyErrorOld "No response from AI") },
            request := some req }
        | .returned (some txt) =>
          if txt = "" then
            { state := { s2 with loading := false, error := some (classifyErrorOld "No response from AI") },
              request := some req }
          else
            match parseStringArray txt.toList with
            | some strs =>
              { state := finishSuccess s2 start strs isLoadMore, request := some req }
            | none =>
              { state := { s2 with loading := false, error := some genericErrorMsg },
                request := some req }

/-- The offset the next load-more call would use (src/App.tsx line 124). -/
def nextBatchOffset (s : AppState) : Nat := (s.batchIndex + 1) * BATCH_SIZE

/-- Deterministic stub service that echoes the batch it receives as a
canonical JSON array of the same strings. -/
def echoSvc : List String → CallResult :=
  fun ts => .returned (some (String.mk (renderArr ts)))

/-- Count of templates consumed by the call of one operation (zero when no
call was issued). -/
def stepConsumed (r : GenResult) : Nat :=
  match r.request with
  | some req => req.templates.length
  | none => 0

/-- Run a sequence of generate operations (`true` = load-more, `false` =
fresh), threading the React state and accumulating the count of templates
consumed by the calls issued since the last fresh reset. -/
def runGenerate (rawHooks : List String) (apiKey : String)
    (svc : List String → CallResult) (fd : FormData) :
    List Bool → AppState × Nat → AppState × Nat
  | [], p => p
  | m :: ms, (s, c) =>
    let r := generateHooks rawHooks apiKey svc fd m s
    runGenerate rawHooks apiKey svc fd ms
      (r.state, if m then c + stepConsumed r else stepConsumed r)

/-- Non-empty required form fields (src/App.tsx line 113). -/
def ValidForm (fd : FormData) : Prop := fd.niche ≠ "" ∧ fd.topic ≠ ""

/-- A configured service credential that passes the `getAIClient` check. -/
def ValidKey (apiKey : String) : Prop := apiKeyMissing apiKey = false

/-- A reply wrapped in a Markdown code fence, as in the scenario of the spec:
three backticks and `json`, a newline, the payload, a newline, three backticks. -/
def wrapFence (l : List Char) : List Char :=
  fenceJsonPat ++ '\n' :: l ++ '\n' :: fencePat

/-! ### The access gate (src/App.tsx, `handleLogin`) -/

/-- Login screen state: `isAuthenticated`, the persisted
`localStorage` flag `hook_system_auth`, and `authError`. -/
structure AuthState where
  isAuthenticated : Bool
  storedAuth : Bool
  authError : String
deriving DecidableEq, Repr

/-- Outcome classification of one `handleLogin` invocation. -/
inductive LoginResult where
  | invalidEmail
  | missingCode
  | codeMismatch
  | success
deriving DecidableEq, Repr

/-- Invalid-email message (src/App.tsx line 47). -/
def invalidEmailMsg : String :=
  "Por favor ingresa un correo electrónico válido antes de entrar."

/-- Missing-code message (src/App.tsx line 53). -/
def missingCodeMsg : String := "Por favor ingresa tu código de acceso."

/-- Code-mismatch message (src/App.tsx line 69). -/
def codeMismatchMsg : String :=
  "Código de acceso incorrecto. Verifica que esté bien escrito o solicita uno nuevo."

/-- `validateEmail` (src/App.tsx lines 38-40): truthy, contains an `@` and
contains a dot. -/
def validateEmail (email : String) : Bool :=
  email != "" && email.toList.contains '@' && email.toList.contains '.'

/-- The allow-list parsed from the configured `ACCESS_CODES` string
(src/App.tsx line 61): split on commas, trim, drop blanks. -/
def validCodes (envCodes : String) : List (List Char) :=
  ((splitComma envCodes.toList).map jsTrim).filter (fun c => c ≠ [])

/-- The case-insensitive allow-list membership test (src/App.tsx line 64). -/
def codeMatches (envCodes code : String) : Bool :=
  (validCodes envCodes).any (fun c => toLowerL c == toLowerL (jsTrim code.toList))

/-- One `handleLogin` invocation (src/App.tsx lines 42-71) as a pure
transition on the login state, paired with the outcome classification.
`envCodes` is the injected `process.env.ACCESS_CODES` configuration. -/
def handleLogin (envCodes email code : String) (st : AuthState) :
    AuthState × LoginResult :=
  if !(validateEmail email) then
    ({ st with authError := invalidEmailMsg }, .invalidEmail)
  else if jsTrim code.toList = [] then
    ({ st with authError := missingCodeMsg }, .missingCode)
  else if codeMatches envCodes code then
    ({ st with isAuthenticated := true, storedAuth := true, authError := "" }, .success)
  else
    ({ st with authError := codeMismatchMsg }, .codeMismatch)

/-! ### Basic lemmas -/

theorem fenceJsonPat_eq : fenceJsonPat = ['`', '`', '`', 'j', 's', 'o', 'n'] := rfl

theorem fencePat_eq : fencePat = ['`', '`', '`'] := rfl

theorem skipWs_cons_of_not_ws (c : Char) (l : List Char) (h : wsChar c = false) :
    skipWs (c :: l) = c :: l := by
  simp [skipWs, List.dropWhile_cons, h]

theorem mkHooks_length (start : Nat) (ts : List String) :
    (mkHooks start ts).length = ts.length := by
  induction ts generalizing start with
  | nil => rfl
  | cons t ts ih => simp [mkHooks, ih]

theorem mkHooks_get (start : Nat) (ts : List String) (j : Nat)
    (h : j < (mkHooks start ts).length) :
    (mkHooks start ts).get ⟨j, h⟩
      = { id := start + j, originalTemplateId := start + j,
          text := ts.get ⟨j, by simpa [mkHooks_length] using h⟩ } := by
  induction ts generalizing start j with
  | nil => simp [mkHooks] at h
  | cons t ts ih =>
    cases j with
    | zero => simp [mkHooks]
    | succ j =>
      have h' : j < (mkHooks (start + 1) ts).length := by
        simpa [mkHooks, Nat.succ_lt_succ_iff] using h
      have := ih (start + 1) j h'
      simp only [mkHooks, List.get_cons_succ, this]
      congr 1 <;> omega

/-! ### Round-trip: the canonical renderer inverts under the parse model -/

theorem parseStringBody_escape (s : List Char) (rest : List Char)
    (hs : ∀ c ∈ s, 32 ≤ c.toNat) :
    parseStringBody ((s.map escapeChar).flatten ++ '"' :: rest) = some (s, rest) := by
  induction s with
  | nil =>
    rw [List.map_nil, List.flatten_nil, List.nil_append, parseStringBody.eq_def]
    simp
  | cons c s ih =>
    have hc : 32 ≤ c.toNat := hs c (by simp)
    have hrec := ih (fun d hd => hs d (by simp [hd]))
    by_cases hq : c = '"'
    · subst hq
      rw [List.map_cons, List.flatten_cons, escapeChar, if_pos rfl]
      rw [List.cons_append, List.cons_append, parseStringBody.eq_def]
      simp [unescapeChar, hrec]
    · by_cases hb : c = '\\'
      · subst hb
        rw [List.map_cons, List.flatten_cons, escapeChar, if_neg (by decide), if_pos rfl]
        rw [List.cons_append, List.cons_append, parseStringBody.eq_def]
        simp [unescapeChar, hrec]
      · have hlt : ¬ c.toNat < 32 := by omega
        rw [List.map_cons, List.flatten_cons, escapeChar, if_neg hq, if_neg hb]
        rw [List.singleton_append, parseStringBody.eq_def]
        simp [hq, hb, hlt, hrec]

theorem string_mk_toList (t : String) : String.mk t.toList = t := rfl

theorem renderElems_single (t : String) : renderElems [t] = renderStr t := rfl

theorem renderElems_cons₂ (t t2 : String) (ts : List String) :
    renderElems (t :: t2 :: ts) = renderStr t ++ ',' :: renderElems (t2 :: ts) := rfl

theorem length_renderElems (ts : List String) :
    ts.length ≤ (renderElems ts).length := by
  induction ts with
  | nil => simp [renderElems]
  | cons t ts ih =>
    cases ts with
    | nil => simp [renderElems_single, renderStr]
    | cons t2 ts' =>
      rw [renderElems_cons₂]
      simp only [List.length_append, List.length_cons] at *
      omega

theorem parseElems_render (ts : List String) (r : List Char) (fuel : Nat)
    (hne : ts ≠ []) (hsafe : ∀ t ∈ ts, SafeStr t) (hfuel : ts.length ≤ fuel) :
    parseElems fuel (renderElems ts ++ ']' :: r) = some (ts, r) := by
  induction ts generalizing fuel r with
  | nil => exact absurd rfl hne
  | cons t ts ih =>
    obtain ⟨fuel, rfl⟩ : ∃ f, fuel = f + 1 := by
      cases fuel with
      | zero => simp at hfuel
      | succ f => exact ⟨f, rfl⟩
    have hts : SafeStr t := hsafe t (by simp)
    cases ts with
    | nil =>
      have hbody := parseStringBody_escape t.toList (']' :: r) hts
      have hshape : renderElems [t] ++ ']' :: r
          = '"' :: ((t.toList.map escapeChar).flatten ++ '"' :: ']' :: r) := by
        simp [renderElems_single, renderStr]
      rw [hshape]
      simp only [parseElems]
      rw [skipWs_cons_of_not_ws '"' _ (by decide)]
      simp only [hbody, if_pos rfl]
      rw [skipWs_cons_of_not_ws ']' _ (by decide)]
      simp [string_mk_toList]
    | cons t2 ts' =>
      have hbody := parseStringBody_escape t.toList
        (',' :: (renderElems (t2 :: ts') ++ ']' :: r)) hts
      have hrec := ih r fuel (by simp) (fun d hd => hsafe d (List.mem_cons_of_mem _ hd))
        (by simp only [List.length_cons] at hfuel ⊢; omega)
      have hshape : renderElems (t :: t2 :: ts') ++ ']' :: r
          = '"' :: ((t.toList.map escapeChar).flatten ++
              '"' :: ',' :: (renderElems (t2 :: ts') ++ ']' :: r)) := by
        simp [renderElems_cons₂, renderStr]
      rw [hshape]
      simp only [parseElems]
      rw [skipWs_cons_of_not_ws '"' _ (by decide)]
      simp only [hbody, if_pos rfl]
      rw [skipWs_cons_of_not_ws ',' _ (by decide)]
      simp [hrec, string_mk_toList]

theorem renderElems_cons_head (t : String) (ts : List String) :
    ∃ l, renderElems (t :: ts) = '"' :: l := by
  cases ts with
  | nil => exact ⟨_, rfl⟩
  | cons t2 ts' => exact ⟨_, rfl⟩

theorem parseStringArray_render (ts : List String) (hsafe : ∀ t ∈ ts, SafeStr t) :
    parseStringArray (renderArr ts) = some ts := by
  cases ts with
  | nil => decide
  | cons t ts =>
    obtain ⟨l, hl⟩ := renderElems_cons_head t ts
    have hlen : (t :: ts).length ≤ ('[' :: (renderElems (t :: ts) ++ [']'])).length + 1 := by
      have h1 := length_renderElems (t :: ts)
      have h2 : ('[' :: (renderElems (t :: ts) ++ [']'])).length
          = (renderElems (t :: ts)).length + 2 := by simp
      omega
    have helems := parseElems_render (t :: ts) []
      (('[' :: (renderElems (t :: ts) ++ [']'])).length + 1) (by simp) hsafe hlen
    have harr : renderArr (t :: ts) = '[' :: (renderElems (t :: ts) ++ [']']) := by
      simp [renderArr]
    rw [harr]
    rw [show renderElems (t :: ts) ++ [']'] = renderElems (t :: ts) ++ ']' :: [] from rfl] at helems
    simp only [parseStringArray]
    rw [skipWs_cons_of_not_ws '[' _ (by decide)]
    simp only [if_pos rfl, if_true]
    rw [hl] at helems ⊢
    simp only [List.cons_append] at helems ⊢
    rw [skipWs_cons_of_not_ws '"' (l ++ [']']) (by decide)]
    simp only [if_neg (show ¬ ('"' : Char) = ']' by decide), helems]
    simp [skipWs]

/-! ### Lemmas about the model of the global replace and the fallback cleanup -/

theorem jsReplaceAllF_nil (pat rep : List Char) (fuel : Nat) :
    jsReplaceAllF pat rep fuel [] = [] := by
  cases fuel <;> rfl

theorem jsReplaceAllF_fuel (pat rep : List Char) :
    ∀ fuel₁ fuel₂ l, l.length ≤ fuel₁ → l.length ≤ fuel₂ →
      jsReplaceAllF pat rep fuel₁ l = jsReplaceAllF pat rep fuel₂ l := by
  intro fuel₁
  induction fuel₁ with
  | zero =>
    intro fuel₂ l h1 _
    have hl : l = [] := List.length_eq_zero.mp (Nat.le_zero.mp h1)
    subst hl
    simp [jsReplaceAllF_nil]
  | succ f ih =>
    intro fuel₂ l h1 h2
    cases l with
    | nil => simp [jsReplaceAllF_nil]
    | cons c rest =>
      cases fuel₂ with
      | zero => simp at h2
      | succ f₂ =>
        simp only [List.length_cons] at h1 h2
        simp only [jsReplaceAllF]
        by_cases hm : pat.isPrefixOf (c :: rest) ∧ pat ≠ []
        · rw [if_pos hm, if_pos hm]
          congr 1
          apply ih
          · have := List.length_drop (pat.length - 1) rest
            omega
          · have := List.length_drop (pat.length - 1) rest
            omega
        · rw [if_neg hm, if_neg hm]
          congr 1
          apply ih <;> omega

theorem jsReplaceAllF_pass (p' rep : List Char) (s t : List Char)
    (hs : ∀ c ∈ s, c ≠ '`') :
    ∀ fuel, jsReplaceAllF ('`' :: p') rep (fuel + s.length) (s ++ t)
      = s ++ jsReplaceAllF ('`' :: p') rep fuel t := by
  induction s with
  | nil => intro fuel; simp
  | cons c s ih =>
    intro fuel
    have hc : c ≠ '`' := hs c (by simp)
    have hpre : ('`' :: p').isPrefixOf (c :: (s ++ t)) = false := by
      simp only [List.isPrefixOf]
      simp [beq_eq_false_iff_ne, Ne.symm hc]
    show jsReplaceAllF ('`' :: p') rep ((fuel + s.length) + 1) (c :: (s ++ t))
      = (c :: s) ++ jsReplaceAllF ('`' :: p') rep fuel t
    simp only [jsReplaceAllF]
    rw [if_neg (by simp [hpre])]
    rw [ih (fun d hd => hs d (by simp [hd])) fuel]
    simp

theorem jsReplaceAllF_fencejson (R : List Char) (fuel : Nat) :
    jsReplaceAllF ['`', '`', '`', 'j', 's', 'o', 'n'] [] (fuel + 1)
        ('`' :: '`' :: '`' :: 'j' :: 's' :: 'o' :: 'n' :: R)
      = jsReplaceAllF ['`', '`', '`', 'j', 's', 'o', 'n'] [] fuel R := by
  simp only [jsReplaceAllF]
  rw [if_pos ⟨by simp [List.isPrefixOf], by simp⟩]
  simp

theorem jsReplaceAll_wrap (s : List Char) (hs : ∀ c ∈ s, c ≠ '`') :
    jsReplaceAll fencePat [] (jsReplaceAll fenceJsonPat [] (wrapFence s))
      = '\n' :: (s ++ ['\n']) := by
  have hsegA : ∀ c ∈ '\n' :: (s ++ ['\n']), c ≠ '`' := by
    intro c hc
    rcases List.mem_cons.mp hc with h | h
    · subst h; decide
    · rcases List.mem_append.mp h with h | h
      · exact hs c h
      · simp at h; subst h; decide
  have htail : jsReplaceAllF ['`', '`', '`', 'j', 's', 'o', 'n'] [] 9 ['`', '`', '`']
      = ['`', '`', '`'] := by decide
  have stepA : jsReplaceAll fenceJsonPat [] (wrapFence s)
      = ('\n' :: (s ++ ['\n'])) ++ ['`', '`', '`'] := by
    have hlen : (wrapFence s).length = ((9 + ('\n' :: (s ++ ['\n'])).length) + 1) := by
      simp [wrapFence, fenceJsonPat_eq, fencePat_eq]
      omega
    have hshape : wrapFence s
        = '`' :: '`' :: '`' :: 'j' :: 's' :: 'o' :: 'n' ::
            (('\n' :: (s ++ ['\n'])) ++ ['`', '`', '`']) := by
      simp [wrapFence, fenceJsonPat_eq, fencePat_eq]
    rw [jsReplaceAll, hlen, hshape, fenceJsonPat_eq]
    rw [jsReplaceAllF_fencejson (('\n' :: (s ++ ['\n'])) ++ ['`', '`', '`'])
      (9 + ('\n' :: (s ++ ['\n'])).length)]
    rw [jsReplaceAllF_pass ['`', '`', 'j', 's', 'o', 'n'] []
      ('\n' :: (s ++ ['\n'])) ['`', '`', '`'] hsegA 9]
    rw [htail]
  rw [stepA]
  have hlenB : ((('\n' :: (s ++ ['\n'])) ++ ['`', '`', '`'])).length
      = 3 + ('\n' :: (s ++ ['\n'])).length := by
    simp
    omega
  have htail3 : jsReplaceAllF ['`', '`', '`'] [] 3 ['`', '`', '`'] = [] := by decide
  rw [jsReplaceAll, hlenB, fencePat_eq]
  rw [jsReplaceAllF_pass ['`', '`'] [] ('\n' :: (s ++ ['\n'])) ['`', '`', '`'] hsegA 3]
  rw [htail3]
  simp

theorem jsTrim_sandwich (c : Char) (s' : List Char) (hc : wsChar c = false)
    (d : Char) (s'' : List Char) (hds : c :: s' = s'' ++ [d]) (hd : wsChar d = false) :
    jsTrim ('\n' :: ((c :: s') ++ ['\n'])) = c :: s' := by
  rw [jsTrim, trimLeftL]
  rw [List.dropWhile_cons, if_pos (by decide)]
  rw [List.cons_append, List.dropWhile_cons, if_neg (by simp [hc])]
  rw [trimRightL]
  rw [show (c :: (s' ++ ['\n'])) = ((c :: s') ++ ['\n']) from rfl, hds]
  rw [List.reverse_append, List.reverse_append]
  simp only [List.reverse_cons, List.reverse_nil, List.nil_append, List.cons_append,
    List.singleton_append]
  rw [List.dropWhile_cons, if_pos (by decide), List.dropWhile_cons, if_neg (by simp [hd])]
  rw [show (d :: s''.reverse) = (s'' ++ [d]).reverse by simp]
  rw [List.reverse_reverse]

/-- Characters of the canonical rendering of one string. -/
theorem mem_renderStr (c : Char) (t : String) (h : c ∈ renderStr t) :
    c = '"' ∨ c = '\\' ∨ c ∈ t.toList := by
  rw [renderStr] at h
  rcases List.mem_cons.mp h with h | h
  · exact Or.inl h
  · rcases List.mem_append.mp h with h | h
    · obtain ⟨l, hl, hcl⟩ := List.mem_flatten.mp h
      obtain ⟨d, hd, rfl⟩ := List.mem_map.mp hl
      by_cases hq : d = '"'
      · subst hq; simp [escapeChar] at hcl
        rcases hcl with h | h <;> simp [h]
      · by_cases hb : d = '\\'
        · subst hb; simp [escapeChar] at hcl; simp [hcl]
        · simp [escapeChar, hq, hb] at hcl
          subst hcl
          exact Or.inr (Or.inr hd)
    · simp at h; simp [h]

/-- Characters of the canonical rendering of a list of strings. -/
theorem mem_renderElems (c : Char) (ts : List String) (h : c ∈ renderElems ts) :
    c = '"' ∨ c = '\\' ∨ c = ',' ∨ ∃ t ∈ ts, c ∈ t.toList := by
  induction ts with
  | nil => simp [renderElems] at h
  | cons t ts ih =>
    cases ts with
    | nil =>
      rw [renderElems_single] at h
      rcases mem_renderStr c t h with h | h | h
      · simp [h]
      · simp [h]
      · exact Or.inr (Or.inr (Or.inr ⟨t, by simp, h⟩))
    | cons t2 ts' =>
      rw [renderElems_cons₂] at h
      rcases List.mem_append.mp h with h | h
      · rcases mem_renderStr c t h with h | h | h
        · simp [h]
        · simp [h]
        · exact Or.inr (Or.inr (Or.inr ⟨t, by simp, h⟩))
      · rcases List.mem_cons.mp h with h | h
        · simp [h]
        · rcases ih h with h | h | h | ⟨u, hu, hcu⟩
          · simp [h]
          · simp [h]
          · simp [h]
          · exact Or.inr (Or.inr (Or.inr ⟨u, List.mem_cons_of_mem _ hu, hcu⟩))

/-- The canonical rendering of fence-free strings contains no backtick. -/
theorem renderArr_no_backtick (ts : List String) (hts : ∀ t ∈ ts, '`' ∉ t.toList) :
    ∀ c ∈ renderArr ts, c ≠ '`' := by
  intro c hc
  cases ts with
  | nil => simp [renderArr] at hc; rcases hc with h | h <;> simp [h]
  | cons t ts =>
    have : renderArr (t :: ts) = '[' :: (renderElems (t :: ts) ++ [']']) := by
      simp [renderArr]
    rw [this] at hc
    rcases List.mem_cons.mp hc with h | h
    · simp [h]
    · rcases List.mem_append.mp h with h | h
      · rcases mem_renderElems c _ h with h | h | h | ⟨u, hu, hcu⟩
        · simp [h]
        · simp [h]
        · simp [h]
        · intro hcback
          subst hcback
          exact hts u hu hcu
      · simp at h; simp [h]

/-- The fallback cleanup undoes the Markdown fence around a canonical
array rendering of fence-free strings. -/
theorem cleanResp_wrap_render (ts : List String) (hts : ∀ t ∈ ts, '`' ∉ t.toList) :
    cleanResp (wrapFence (renderArr ts)) = renderArr ts := by
  rw [cleanResp, jsReplaceAll_wrap (renderArr ts) (renderArr_no_backtick ts hts)]
  cases ts with
  | nil => decide
  | cons t ts =>
    have harr : renderArr (t :: ts) = '[' :: (renderElems (t :: ts) ++ [']']) := by
      simp [renderArr]
    rw [harr]
    exact jsTrim_sandwich '[' (renderElems (t :: ts) ++ [']']) (by decide)
      ']' ('[' :: renderElems (t :: ts)) (by simp) (by decide)

/-- A fence-wrapped reply is not a JSON array under the strict parse. -/
theorem parseStringArray_wrapFence (l : List Char) :
    parseStringArray (wrapFence l) = none := by
  have hshape : wrapFence l
      = '`' :: ('`' :: '`' :: 'j' :: 's' :: 'o' :: 'n' :: ('\n' :: (l ++ '\n' :: fencePat))) := by
    simp [wrapFence, fenceJsonPat_eq]
  rw [hshape]
  simp only [parseStringArray]
  rw [skipWs_cons_of_not_ws '`' _ (by decide)]
  simp

/-! ### Path characterisations of `generateHooks` -/

/-- The slice offset computed at src/App.tsx line 124. -/
def ghStart (m : Bool) (s : AppState) : Nat :=
  if m then (s.batchIndex + 1) * BATCH_SIZE else 0

/-- The state at the moment the external call would be issued: loading set,
error cleared, and for a fresh call results cleared and batch index reset
(src/App.tsx lines 118-130). -/
def ghPre (m : Bool) (s : AppState) : AppState :=
  if m then { s with loading := true, error := none }
  else { s with loading := true, error := none, generatedHooks := [], batchIndex := 0 }

/-- The templates slice of the current batch (src/App.tsx line 132). -/
def ghSlice (rawHooks : List String) (m : Bool) (s : AppState) : List String :=
  (rawHooks.drop (ghStart m s)).take BATCH_SIZE

theorem classify_api_key : classifyError "API_KEY_MISSING" = apiKeyMissingMsg := by decide

theorem classifyOld_api_key :
    classifyErrorOld "API_KEY_MISSING" = apiKeyMissingMsgOld := by decide

theorem generateHooks_invalidForm (L : List String) (k : String)
    (svc : List String → CallResult) (fd : FormData) (m : Bool) (s : AppState)
    (h : fd.niche = "" ∨ fd.topic = "") :
    generateHooks L k svc fd m s
      = ⟨{ s with error := some missingFieldsMsg }, none⟩ := by
  simp [generateHooks, h]

theorem generateHooks_keyMissing (L : List String) (k : String)
    (svc : List String → CallResult) (fd : FormData) (m : Bool) (s : AppState)
    (h1 : ¬ (fd.niche = "" ∨ fd.topic = "")) (h2 : apiKeyMissing k = true) :
    generateHooks L k svc fd m s
      = ⟨{ s with loading := false, error := some apiKeyMissingMsg }, none⟩ := by
  simp [generateHooks, h1, h2, classify_api_key]

theorem generateHooks_eq (L : List String) (k : String)
    (svc : List String → CallResult) (fd : FormData) (m : Bool) (s : AppState)
    (h1 : ¬ (fd.niche = "" ∨ fd.topic = "")) (h2 : apiKeyMissing k = false) :
    generateHooks L k svc fd m s
      = if ghSlice L m s = [] then ⟨{ ghPre m s with loading := false }, none⟩
        else
          let req : Request := ⟨ghStart m s, ghSlice L m s, ghPre m s⟩
          match svc (ghSlice L m s) with
          | .thrown msg =>
            ⟨{ ghPre m s with loading := false, error := some (classifyError msg) }, some req⟩
          | .returned none =>
            ⟨{ ghPre m s with loading := false, error := some (classifyError "No response from AI") }, some req⟩
          | .returned (some txt) =>
            if txt = "" then
              ⟨{ ghPre m s with loading := false, error := some (classifyError "No response from AI") }, some req⟩
            else
              match parseStringArray txt.toList with
              | some strs =>
                ⟨finishSuccess (ghPre m s) (ghStart m s) strs m, some req⟩
              | none =>
                match parseStringArray (cleanResp txt.toList) with
                | some strs =>
                  ⟨finishSuccess (ghPre m s) (ghStart m s) strs m, some req⟩
                | none =>
                  ⟨{ ghPre m s with loading := false, error := some genericErrorMsg },
                   some req⟩ := by
  cases m <;> simp [generateHooks, ghPre, ghStart, ghSlice, h1, h2]

theorem generateHooksOld_eq (L : List String) (k : String)
    (svc : List String → CallResult) (fd : FormData) (m : Bool) (s : AppState)
    (h1 : ¬ (fd.niche = "" ∨ fd.topic = "")) (h2 : apiKeyMissing k = false) :
    generateHooksOld L k svc fd m s
      = if ghSlice L m s = [] then ⟨{ ghPre m s with loading := false }, none⟩
        else
          let req : Request := ⟨ghStart m s, ghSlice L m s, ghPre m s⟩
          match svc (ghSlice L m s) with
          | .thrown msg =>
            ⟨{ ghPre m s with loading := false, error := some (classifyErrorOld msg) }, some req⟩
          | .returned none =>
            ⟨{ ghPre m s with loading := false, error := some (classifyErrorOld "No response from AI") }, some req⟩
          | .returned (some txt) =>
            if txt = "" then
              ⟨{ ghPre m s with loading := false, error := some (classifyErrorOld "No response from AI") }, some req⟩
            else
              match parseStringArray txt.toList with
              | some strs =>
                ⟨finishSuccess (ghPre m s) (ghStart m s) strs m, some req⟩
              | none =>
                ⟨{ ghPre m s with loading := false, error := some genericErrorMsg },
                 some req⟩ := by
  cases m <;> simp [generateHooksOld, ghPre, ghStart, ghSlice, h1, h2]

/-! ### The echo stub run and its invariant -/

theorem ghSlice_eq_nil_iff (L : List String) (m : Bool) (s : AppState) :
    ghSlice L m s = [] ↔ L.length ≤ ghStart m s := by
  rw [ghSlice]
  constructor
  · intro h
    rcases List.take_eq_nil_iff.mp h with h | h
    · simp [BATCH_SIZE] at h
    · exact List.drop_eq_nil_iff_le.mp h
  · intro h
    rw [List.drop_eq_nil_iff_le.mpr h, List.take_nil]

theorem ghSlice_length (L : List String) (m : Bool) (s : AppState) :
    (ghSlice L m s).length = min BATCH_SIZE (L.length - ghStart m s) := by
  simp [ghSlice]

theorem generateHooks_echo_call (L : List String) (k : String) (fd : FormData)
    (m : Bool) (s : AppState)
    (h1 : ¬ (fd.niche = "" ∨ fd.topic = "")) (h2 : apiKeyMissing k = false)
    (hsafe : ∀ t ∈ L, SafeStr t) (hne : ghSlice L m s ≠ []) :
    generateHooks L k echoSvc fd m s
      = ⟨finishSuccess (ghPre m s) (ghStart m s) (ghSlice L m s) m,
         some ⟨ghStart m s, ghSlice L m s, ghPre m s⟩⟩ := by
  have hsliceSafe : ∀ t ∈ ghSlice L m s, SafeStr t := fun t ht =>
    hsafe t (List.mem_of_mem_drop (List.mem_of_mem_take ht))
  have hparse := parseStringArray_render (ghSlice L m s) hsliceSafe
  obtain ⟨t0, ts0, hts0⟩ : ∃ t0 ts0, ghSlice L m s = t0 :: ts0 := by
    cases h : ghSlice L m s with
    | nil => exact absurd h hne
    | cons a b => exact ⟨a, b, rfl⟩
  have hne' : String.mk (renderArr (ghSlice L m s)) ≠ "" := by
    intro hcon
    have := congrArg String.data hcon
    rw [hts0] at this
    simp [renderArr] at this
  rw [generateHooks_eq L k echoSvc fd m s h1 h2, if_neg hne]
  simp only [echoSvc]
  rw [if_neg hne']
  rw [show (String.mk (renderArr (ghSlice L m s))).toList
      = renderArr (ghSlice L m s) from rfl]
  rw [hparse]

/-- Hook records carry ids equal to their global position in the results. -/
def HookIdsSeq (hs : List GeneratedHook) : Prop :=
  ∀ j (h : j < hs.length),
    (hs.get ⟨j, h⟩).originalTemplateId = j ∧ (hs.get ⟨j, h⟩).id = j

/-- Invariant of echo-stub runs: the results cover exactly the prefix of the
template list up to the batch window, the consumed counter tracks the
results, and every hook id equals its position. -/
def EchoInv (L : List String) (p : AppState × Nat) : Prop :=
  p.1.generatedHooks.length = min L.length ((p.1.batchIndex + 1) * BATCH_SIZE)
  ∧ p.2 = p.1.generatedHooks.length
  ∧ HookIdsSeq p.1.generatedHooks

theorem hookIdsSeq_append (hs : List GeneratedHook) (start : Nat) (strs : List String)
    (hseq : HookIdsSeq hs) (hlen : hs.length = start) :
    HookIdsSeq (hs ++ mkHooks start strs) := by
  intro j h
  by_cases hj : j < hs.length
  · have hget : (hs ++ mkHooks start strs).get ⟨j, h⟩ = hs.get ⟨j, hj⟩ := by
      rw [List.get_eq_getElem, List.get_eq_getElem, List.getElem_append_left]
    rw [hget]
    exact hseq j hj
  · have hj' : hs.length ≤ j := Nat.le_of_not_lt hj
    have hjm : j - hs.length < (mkHooks start strs).length := by
      have := List.length_append hs (mkHooks start strs) ▸ h
      omega
    have hget : (hs ++ mkHooks start strs).get ⟨j, h⟩
        = (mkHooks start strs).get ⟨j - hs.length, hjm⟩ := by
      rw [List.get_eq_getElem, List.get_eq_getElem, List.getElem_append_right hj']
    rw [hget, mkHooks_get]
    refine ⟨?_, ?_⟩
    · show start + (j - hs.length) = j
      omega
    · show start + (j - hs.length) = j
      omega

theorem hookIdsSeq_mkHooks_zero (strs : List String) : HookIdsSeq (mkHooks 0 strs) := by
  intro j h
  rw [mkHooks_get]
  refine ⟨?_, ?_⟩
  · show 0 + j = j
    omega
  · show 0 + j = j
    omega

theorem ghPre_true (s : AppState) :
    ghPre true s = { s with loading := true, error := none } := rfl

theorem ghPre_false (s : AppState) :
    ghPre false s
      = { s with loading := true, error := none, generatedHooks := [], batchIndex := 0 } := rfl

theorem ghStart_true (s : AppState) :
    ghStart true s = (s.batchIndex + 1) * BATCH_SIZE := rfl

theorem ghStart_false (s : AppState) : ghStart false s = 0 := rfl

theorem finishSuccess_true (s2 : AppState) (start : Nat) (strs : List String) :
    finishSuccess s2 start strs true
      = { s2 with generatedHooks := s2.generatedHooks ++ mkHooks start strs,
                  batchIndex := s2.batchIndex + 1, loading := false } := rfl

theorem finishSuccess_false (s2 : AppState) (start : Nat) (strs : List String) :
    finishSuccess s2 start strs false
      = { s2 with generatedHooks := mkHooks start strs,
                  batchIndex := 0, loading := false } := rfl

theorem echo_step_inv (L : List String) (k : String) (fd : FormData)
    (h1 : ¬ (fd.niche = "" ∨ fd.topic = "")) (h2 : apiKeyMissing k = false)
    (hsafe : ∀ t ∈ L, SafeStr t) (m : Bool) (s : AppState) (c : Nat)
    (hInv : m = true → EchoInv L (s, c)) :
    EchoInv L ((generateHooks L k echoSvc fd m s).state,
      if m then c + stepConsumed (generateHooks L k echoSvc fd m s)
      else stepConsumed (generateHooks L k echoSvc fd m s)) := by
  by_cases hempty : ghSlice L m s = []
  · have hr : generateHooks L k echoSvc fd m s
        = ⟨{ ghPre m s with loading := false }, none⟩ := by
      rw [generateHooks_eq L k echoSvc fd m s h1 h2, if_pos hempty]
    rw [hr]
    cases m with
    | false =>
      have hL : L.length = 0 := by
        have := (ghSlice_eq_nil_iff L false s).mp hempty
        simpa [ghStart_false] using this
      refine ⟨?_, ?_, ?_⟩
      · simp [ghPre_false, stepConsumed, hL]
      · simp [ghPre_false, stepConsumed]
      · intro j hj
        simp [ghPre_false, stepConsumed] at hj
    | true =>
      obtain ⟨hlen, hc, hseq⟩ := hInv rfl
      refine ⟨?_, ?_, ?_⟩
      · simpa [ghPre_true, stepConsumed] using hlen
      · simpa [ghPre_true, stepConsumed] using hc
      · simpa [ghPre_true, stepConsumed] using hseq
  · rw [generateHooks_echo_call L k fd m s h1 h2 hsafe hempty]
    have hstart_lt : ghStart m s < L.length := by
      by_contra hge
      exact hempty ((ghSlice_eq_nil_iff L m s).mpr (Nat.le_of_not_lt hge))
    have hslen := ghSlice_length L m s
    cases m with
    | false =>
      rw [ghStart_false] at hslen ⊢
      refine ⟨?_, ?_, ?_⟩
      · simp [finishSuccess_false, ghPre_false, mkHooks_length, hslen, BATCH_SIZE]
        omega
      · simp [finishSuccess_false, ghPre_false, stepConsumed, mkHooks_length]
      · simp only [finishSuccess_false, ghPre_false]
        exact hookIdsSeq_mkHooks_zero _
    | true =>
      obtain ⟨hlen, hc, hseq⟩ := hInv rfl
      have hlen' : s.generatedHooks.length = min L.length ((s.batchIndex + 1) * 10) := by
        simpa [BATCH_SIZE] using hlen
      have hc' : c = s.generatedHooks.length := by simpa using hc
      have hslen' : (ghSlice L true s).length
          = min 10 (L.length - (s.batchIndex + 1) * 10) := by
        simpa [BATCH_SIZE, ghStart_true] using hslen
      have hlt : (s.batchIndex + 1) * 10 < L.length := by
        rw [ghStart_true] at hstart_lt
        simpa [BATCH_SIZE] using hstart_lt
      have hstart : s.generatedHooks.length = (s.batchIndex + 1) * 10 := by
        rw [hlen']
        omega
      refine ⟨?_, ?_, ?_⟩
      · simp [finishSuccess_true, ghPre_true, mkHooks_length, hslen', hstart, BATCH_SIZE]
        omega
      · simp [finishSuccess_true, ghPre_true, stepConsumed, mkHooks_length,
          hslen', hc', hstart]
      · simp only [finishSuccess_true, ghPre_true]
        exact hookIdsSeq_append _ _ _ hseq (by rw [hstart, ghStart_true, BATCH_SIZE])

theorem runGenerate_cons (L : List String) (k : String)
    (svc : List String → CallResult) (fd : FormData) (m : Bool) (ms : List Bool)
    (s : AppState) (c : Nat) :
    runGenerate L k svc fd (m :: ms) (s, c)
      = runGenerate L k svc fd ms
          ((generateHooks L k svc fd m s).state,
           if m then c + stepConsumed (generateHooks L k svc fd m s)
           else stepConsumed (generateHooks L k svc fd m s)) := rfl

theorem runGenerate_echo_inv (L : List String) (k : String) (fd : FormData)
    (h1 : ¬ (fd.niche = "" ∨ fd.topic = "")) (h2 : apiKeyMissing k = false)
    (hsafe : ∀ t ∈ L, SafeStr t) (ms : List Bool) :
    ∀ p, EchoInv L p → EchoInv L (runGenerate L k echoSvc fd ms p) := by
  induction ms with
  | nil => exact fun p h => h
  | cons m ms ih =>
    intro p h
    obtain ⟨s, c⟩ := p
    rw [runGenerate_cons]
    exact ih _ (echo_step_inv L k fd h1 h2 hsafe m s c (fun _ => h))

theorem runGenerate_fresh_echo_inv (L : List String) (k : String) (fd : FormData)
    (h1 : ¬ (fd.niche = "" ∨ fd.topic = "")) (h2 : apiKeyMissing k = false)
    (hsafe : ∀ t ∈ L, SafeStr t) (ms : List Bool) (s : AppState) (c : Nat) :
    EchoInv L (runGenerate L k echoSvc fd (false :: ms) (s, c)) := by
  rw [runGenerate_cons]
  exact runGenerate_echo_inv L k fd h1 h2 hsafe ms _
    (echo_step_inv L k fd h1 h2 hsafe false s c (by intro h; exact absurd h (by decide)))

theorem finishSuccess_loading (s2 : AppState) (start : Nat) (strs : List String)
    (m : Bool) : (finishSuccess s2 start strs m).loading = false := by
  cases m <;> rfl


/-! ### Claim C1 -/

/-- C1 counterexample: with 5 templates and an echoing service, one
successful Fresh call consumes 5 templates but the offset the next
LoadMore would use is (0+1)*10 = 10, so the next-batch offset does not
equal the count of templates consumed after a partial final batch. -/
theorem c1_next_offset_counterexample :
    nextBatchOffset (runGenerate ["a", "b", "c", "d", "e"] "k" echoSvc
        ⟨"n", "t", ""⟩ [false] (AppState.init, 0)).1 = 10
    ∧ (runGenerate ["a", "b", "c", "d", "e"] "k" echoSvc
        ⟨"n", "t", ""⟩ [false] (AppState.init, 0)).2 = 5
    ∧ ¬ (nextBatchOffset (runGenerate ["a", "b", "c", "d", "e"] "k" echoSvc
        ⟨"n", "t", ""⟩ [false] (AppState.init, 0)).1
          = (runGenerate ["a", "b", "c", "d", "e"] "k" echoSvc
        ⟨"n", "t", ""⟩ [false] (AppState.init, 0)).2) := by
  decide

/-- C1 (amended): for every state reached by a successful Fresh followed by
any sequence of successful generate operations against an echoing service,
the count of templates consumed since the Fresh reset equals
min(templateCount, nextBatchOffset); hence the next-batch offset equals the
consumed count exactly when it does not exceed the template count (that is,
unless the final batch was partial). -/
theorem c1_next_offset_invariant (L : List String) (k : String) (fd : FormData)
    (h1 : fd.niche ≠ "") (h2 : fd.topic ≠ "") (hk : apiKeyMissing k = false)
    (hsafe : ∀ t ∈ L, SafeStr t) (ms : List Bool) (s : AppState) (c : Nat) :
    let p := runGenerate L k echoSvc fd (false :: ms) (s, c)
    p.2 = min L.length (nextBatchOffset p.1)
    ∧ (nextBatchOffset p.1 ≤ L.length → nextBatchOffset p.1 = p.2) := by
  intro p
  have h1' : ¬ (fd.niche = "" ∨ fd.topic = "") := by
    push_neg
    exact ⟨h1, h2⟩
  obtain ⟨hlen, hc, _⟩ := runGenerate_fresh_echo_inv L k fd h1' hk hsafe ms s c
  have hp : p = runGenerate L k echoSvc fd (false :: ms) (s, c) := rfl
  rw [← hp] at hlen hc
  refine ⟨?_, ?_⟩
  · rw [hc, hlen, nextBatchOffset]
  · intro hle
    rw [hc, hlen, nextBatchOffset]
    rw [nextBatchOffset] at hle
    omega

/-- Witness for C1 at a concrete run. -/
theorem c1_next_offset_invariant_witness :
    let p := runGenerate ["a", "b"] "k" echoSvc ⟨"n", "t", ""⟩ [false] (AppState.init, 0)
    p.2 = min (List.length ["a", "b"]) (nextBatchOffset p.1)
    ∧ (nextBatchOffset p.1 ≤ List.length ["a", "b"] → nextBatchOffset p.1 = p.2) :=
  c1_next_offset_invariant ["a", "b"] "k" ⟨"n", "t", ""⟩
    (by decide) (by decide) (by decide) (by decide) [] AppState.init 0

/-! ### Claim C4 -/

/-- C4: with the echoing stub service, the hook built for position i of a
batch starting at offset start carries sourceTemplateId start + i, and
across every Fresh-started run each accumulated hook at global position j
carries originalTemplateId = j and id = j. -/
theorem c4_round_trip_ids (L : List String) (k : String) (fd : FormData)
    (h1 : fd.niche ≠ "") (h2 : fd.topic ≠ "") (hk : apiKeyMissing k = false)
    (hsafe : ∀ t ∈ L, SafeStr t) (ms : List Bool) (s : AppState) (c : Nat) :
    (∀ (start : Nat) (strs : List String) (j : Nat)
        (h : j < (mkHooks start strs).length),
        ((mkHooks start strs).get ⟨j, h⟩).originalTemplateId = start + j
        ∧ ((mkHooks start strs).get ⟨j, h⟩).id = start + j)
    ∧ (∀ (j : Nat)
        (h : j < (runGenerate L k echoSvc fd (false :: ms) (s, c)).1.generatedHooks.length),
        (((runGenerate L k echoSvc fd (false :: ms) (s, c)).1.generatedHooks.get
            ⟨j, h⟩).originalTemplateId = j)
        ∧ (((runGenerate L k echoSvc fd (false :: ms) (s, c)).1.generatedHooks.get
            ⟨j, h⟩).id = j)) := by
  have h1' : ¬ (fd.niche = "" ∨ fd.topic = "") := by
    push_neg
    exact ⟨h1, h2⟩
  refine ⟨?_, ?_⟩
  · intro start strs j h
    rw [mkHooks_get]
    exact ⟨rfl, rfl⟩
  · exact (runGenerate_fresh_echo_inv L k fd h1' hk hsafe ms s c).2.2

/-- Witness for C4 at a concrete run. -/
theorem c4_round_trip_ids_witness :
    (∀ (start : Nat) (strs : List String) (j : Nat)
        (h : j < (mkHooks start strs).length),
        ((mkHooks start strs).get ⟨j, h⟩).originalTemplateId = start + j
        ∧ ((mkHooks start strs).get ⟨j, h⟩).id = start + j)
    ∧ (∀ (j : Nat)
        (h : j < (runGenerate ["a", "b"] "k" echoSvc ⟨"n", "t", ""⟩
            [false] (AppState.init, 0)).1.generatedHooks.length),
        (((runGenerate ["a", "b"] "k" echoSvc ⟨"n", "t", ""⟩
            [false] (AppState.init, 0)).1.generatedHooks.get
            ⟨j, h⟩).originalTemplateId = j)
        ∧ (((runGenerate ["a", "b"] "k" echoSvc ⟨"n", "t", ""⟩
            [false] (AppState.init, 0)).1.generatedHooks.get
            ⟨j, h⟩).id = j)) :=
  c4_round_trip_ids ["a", "b"] "k" ⟨"n", "t", ""⟩
    (by decide) (by decide) (by decide) (by decide) [] AppState.init 0

/-! ### Claim C6 -/

/-- C6: whenever the niche/topic validation passes (the only path that sets
the loading flag), the loading flag is false after the operation on every
exit path: missing credential, exhausted templates, thrown service error,
missing reply text, parse failure after fallback, and success.  The
operation is a total function of its inputs, so no error escapes it. -/
theorem c6_loading_cleared (L : List String) (k : String)
    (svc : List String → CallResult) (fd : FormData) (m : Bool) (s : AppState)
    (h1 : fd.niche ≠ "") (h2 : fd.topic ≠ "") :
    (generateHooks L k svc fd m s).state.loading = false := by
  have h1' : ¬ (fd.niche = "" ∨ fd.topic = "") := by
    push_neg
    exact ⟨h1, h2⟩
  by_cases hk : apiKeyMissing k = true
  · rw [generateHooks_keyMissing L k svc fd m s h1' hk]
  · rw [generateHooks_eq L k svc fd m s h1' (by simpa using hk)]
    by_cases hempty : ghSlice L m s = []
    · rw [if_pos hempty]
    · rw [if_neg hempty]
      cases hsvc : svc (ghSlice L m s) with
      | thrown msg => simp
      | returned o =>
        cases o with
        | none => simp
        | some txt =>
          by_cases htxt : txt = ""
          · simp [htxt]
          · simp only [htxt, if_neg htxt]
            cases hp : parseStringArray txt.toList with
            | some strs => simp [finishSuccess_loading]
            | none =>
              cases hp2 : parseStringArray (cleanResp txt.toList) with
              | some strs => simp [finishSuccess_loading]
              | none => simp

/-- Witness for C6 at a concrete input. -/
theorem c6_loading_cleared_witness :
    (generateHooks ["a"] "k" echoSvc ⟨"n", "t", ""⟩ false AppState.init).state.loading
      = false :=
  c6_loading_cleared ["a"] "k" echoSvc ⟨"n", "t", ""⟩ false AppState.init
    (by decide) (by decide)

/-! ### Claim C8 -/

/-- C8: when niche or topic is empty, generate sets the
missing-required-fields message, makes no external call, and leaves
results, batch index and the loading flag exactly as they were. -/
theorem c8_validation_guard (L : List String) (k : String)
    (svc : List String → CallResult) (fd : FormData) (m : Bool) (s : AppState)
    (h : fd.niche = "" ∨ fd.topic = "") :
    (generateHooks L k svc fd m s).request = none
    ∧ (generateHooks L k svc fd m s).state
        = { s with error := some missingFieldsMsg } := by
  rw [generateHooks_invalidForm L k svc fd m s h]
  exact ⟨rfl, rfl⟩

/-- Witness for C8 at a concrete input. -/
theorem c8_validation_guard_witness :
    (generateHooks ["a"] "k" echoSvc ⟨"", "t", ""⟩ false AppState.init).request = none
    ∧ (generateHooks ["a"] "k" echoSvc ⟨"", "t", ""⟩ false AppState.init).state
        = { AppState.init with error := some missingFieldsMsg } :=
  c8_validation_guard ["a"] "k" echoSvc ⟨"", "t", ""⟩ false AppState.init (by decide)

/-! ### Claim C2 -/

/-- C2 counterexample: an exhausted LoadMore is not a frame-preserving
no-op on the whole state — the operation clears `lastError` at entry, so a
prior error message is not restored (results and batch index are kept, and
no call is made). -/
theorem c2_exhausted_noop_counterexample :
    (generateHooks ["a", "b"] "k" echoSvc ⟨"n", "t", ""⟩ true
        ⟨[], false, some "boom", 0⟩).request = none
    ∧ ¬ ((generateHooks ["a", "b"] "k" echoSvc ⟨"n", "t", ""⟩ true
        ⟨[], false, some "boom", 0⟩).state.error
          = (⟨[], false, some "boom", 0⟩ : AppState).error) := by
  decide

/-- C2 (amended): when the computed slice is empty the operation makes no
external call and clears loading, but it clears lastError (set to null at
entry) rather than restoring it; for LoadMore the results and batch index
are unchanged, while a Fresh call with an exhausted (empty) template list
clears results and resets the batch index.  In the 25-template scenario the
fourth call is a no-op leaving 25 results with no call issued. -/
theorem c2_exhausted_noop (L : List String) (k : String)
    (svc : List String → CallResult) (fd : FormData) (m : Bool) (s : AppState)
    (h1 : fd.niche ≠ "") (h2 : fd.topic ≠ "") (hk : apiKeyMissing k = false)
    (hempty : ghSlice L m s = []) :
    ((generateHooks L k svc fd m s).request = none
     ∧ (generateHooks L k svc fd m s).state.loading = false
     ∧ (generateHooks L k svc fd m s).state.error = none
     ∧ (m = true → (generateHooks L k svc fd m s).state.generatedHooks = s.generatedHooks
         ∧ (generateHooks L k svc fd m s).state.batchIndex = s.batchIndex)
     ∧ (m = false → (generateHooks L k svc fd m s).state.generatedHooks = []
         ∧ (generateHooks L k svc fd m s).state.batchIndex = 0))
    ∧ (let L25 := List.replicate 25 "h"
       let fd0 : FormData := ⟨"n", "t", ""⟩
       let p1 := runGenerate L25 "k" echoSvc fd0 [false] (AppState.init, 0)
       let p2 := runGenerate L25 "k" echoSvc fd0 [false, true] (AppState.init, 0)
       let p3 := runGenerate L25 "k" echoSvc fd0 [false, true, true] (AppState.init, 0)
       p1.1.generatedHooks.length = 10
       ∧ p2.1.generatedHooks.length = 20
       ∧ p3.1.generatedHooks.length = 25
       ∧ (generateHooks L25 "k" echoSvc fd0 true p3.1).request = none
       ∧ (generateHooks L25 "k" echoSvc fd0 true p3.1).state.generatedHooks.length = 25) := by
  have h1' : ¬ (fd.niche = "" ∨ fd.topic = "") := by
    push_neg
    exact ⟨h1, h2⟩
  have hr : generateHooks L k svc fd m s
      = ⟨{ ghPre m s with loading := false }, none⟩ := by
    rw [generateHooks_eq L k svc fd m s h1' hk, if_pos hempty]
  refine ⟨?_, by decide⟩
  rw [hr]
  cases m with
  | false => exact ⟨rfl, rfl, rfl, by simp, fun _ => ⟨rfl, rfl⟩⟩
  | true => exact ⟨rfl, rfl, rfl, fun _ => ⟨rfl, rfl⟩, by simp⟩

/-- Witness for C2 at a concrete exhausted LoadMore. -/
theorem c2_exhausted_noop_witness :
    ((generateHooks ["a"] "k" echoSvc ⟨"n", "t", ""⟩ true AppState.init).request = none
     ∧ (generateHooks ["a"] "k" echoSvc ⟨"n", "t", ""⟩ true AppState.init).state.loading = false
     ∧ (generateHooks ["a"] "k" echoSvc ⟨"n", "t", ""⟩ true AppState.init).state.error = none
     ∧ (true = true →
         (generateHooks ["a"] "k" echoSvc ⟨"n", "t", ""⟩ true AppState.init).state.generatedHooks
             = AppState.init.generatedHooks
         ∧ (generateHooks ["a"] "k" echoSvc ⟨"n", "t", ""⟩ true AppState.init).state.batchIndex
             = AppState.init.batchIndex)
     ∧ (true = false →
         (generateHooks ["a"] "k" echoSvc ⟨"n", "t", ""⟩ true AppState.init).state.generatedHooks = []
         ∧ (generateHooks ["a"] "k" echoSvc ⟨"n", "t", ""⟩ true AppState.init).state.batchIndex = 0))
    ∧ (let L25 := List.replicate 25 "h"
       let fd0 : FormData := ⟨"n", "t", ""⟩
       let p1 := runGenerate L25 "k" echoSvc fd0 [false] (AppState.init, 0)
       let p2 := runGenerate L25 "k" echoSvc fd0 [false, true] (AppState.init, 0)
       let p3 := runGenerate L25 "k" echoSvc fd0 [false, true, true] (AppState.init, 0)
       p1.1.generatedHooks.length = 10
       ∧ p2.1.generatedHooks.length = 20
       ∧ p3.1.generatedHooks.length = 25
       ∧ (generateHooks L25 "k" echoSvc fd0 true p3.1).request = none
       ∧ (generateHooks L25 "k" echoSvc fd0 true p3.1).state.generatedHooks.length = 25) :=
  c2_exhausted_noop ["a"] "k" echoSvc ⟨"n", "t", ""⟩ true AppState.init
    (by decide) (by decide) (by decide) (by decide)

/-! ### Claim C3 -/

theorem generateHooks_request_shape (L : List String) (k : String)
    (svc : List String → CallResult) (fd : FormData) (m : Bool) (s : AppState)
    (h1 : ¬ (fd.niche = "" ∨ fd.topic = "")) (hk : apiKeyMissing k = false) :
    (generateHooks L k svc fd m s).request = none
    ∨ (generateHooks L k svc fd m s).request
        = some ⟨ghStart m s, ghSlice L m s, ghPre m s⟩ := by
  rw [generateHooks_eq L k svc fd m s h1 hk]
  by_cases hempty : ghSlice L m s = []
  · left
    rw [if_pos hempty]
  · right
    rw [if_neg hempty]
    cases svc (ghSlice L m s) with
    | thrown msg => rfl
    | returned o =>
      cases o with
      | none => rfl
      | some txt =>
        by_cases htxt : txt = ""
        · simp [htxt]
        · simp only [if_neg htxt]
          cases parseStringArray txt.toList with
          | some strs => rfl
          | none =>
            cases parseStringArray (cleanResp txt.toList) with
            | some strs => rfl
            | none => rfl

/-- C3: for every generate call with non-empty niche and topic (any
audience), every external call issued uses the window start = 0 for Fresh
and (batchIndex+1)*PAGE_SIZE for LoadMore with PAGE_SIZE = 10, its
templates are exactly the slice [start, start+PAGE_SIZE) of the template
list, and a Fresh call has cleared the results and reset the batch index
before the call is issued. -/
theorem c3_batch_window (L : List String) (k : String)
    (svc : List String → CallResult) (fd : FormData) (m : Bool) (s : AppState)
    (h1 : fd.niche ≠ "") (h2 : fd.topic ≠ "") :
    BATCH_SIZE = 10
    ∧ (∀ req, (generateHooks L k svc fd m s).request = some req →
        req.start = (if m then (s.batchIndex + 1) * BATCH_SIZE else 0)
        ∧ req.templates = (L.drop req.start).take BATCH_SIZE
        ∧ req.templates = (L.take (req.start + BATCH_SIZE)).drop req.start
        ∧ (m = false → req.stateAtCall.generatedHooks = []
            ∧ req.stateAtCall.batchIndex = 0)) := by
  have h1' : ¬ (fd.niche = "" ∨ fd.topic = "") := by
    push_neg
    exact ⟨h1, h2⟩
  refine ⟨rfl, ?_⟩
  intro req hreq
  by_cases hk : apiKeyMissing k = true
  · rw [generateHooks_keyMissing L k svc fd m s h1' hk] at hreq
    exact absurd hreq (by simp)
  · rcases generateHooks_request_shape L k svc fd m s h1' (by simpa using hk) with h | h
    · rw [h] at hreq
      exact absurd hreq (by simp)
    · rw [h] at hreq
      obtain rfl : req = ⟨ghStart m s, ghSlice L m s, ghPre m s⟩ :=
        (Option.some.injEq _ _ ▸ hreq).symm
      refine ⟨rfl, rfl, ?_, ?_⟩
      · show ghSlice L m s = (L.take (ghStart m s + BATCH_SIZE)).drop (ghStart m s)
        rw [ghSlice, List.take_drop]
      · intro hm
        subst hm
        exact ⟨rfl, rfl⟩

/-- Witness for C3 at a concrete input. -/
theorem c3_batch_window_witness :
    BATCH_SIZE = 10
    ∧ (∀ req, (generateHooks ["a"] "k" echoSvc ⟨"n", "t", ""⟩ false
          AppState.init).request = some req →
        req.start = (if false then (AppState.init.batchIndex + 1) * BATCH_SIZE else 0)
        ∧ req.templates = ((["a"] : List String).drop req.start).take BATCH_SIZE
        ∧ req.templates = ((["a"] : List String).take (req.start + BATCH_SIZE)).drop req.start
        ∧ (false = false → req.stateAtCall.generatedHooks = []
            ∧ req.stateAtCall.batchIndex = 0)) :=
  c3_batch_window ["a"] "k" echoSvc ⟨"n", "t", ""⟩ false AppState.init
    (by decide) (by decide)

/-! ### Claim C5 -/

theorem generateHooks_reply (L : List String) (k : String) (fd : FormData)
    (m : Bool) (s : AppState)
    (h1 : ¬ (fd.niche = "" ∨ fd.topic = "")) (hk : apiKeyMissing k = false)
    (hne : ghSlice L m s ≠ []) (txt : String) (htxt : txt ≠ "") :
    generateHooks L k (fun _ => .returned (some txt)) fd m s
      = match parseStringArray txt.toList with
        | some strs =>
          ⟨finishSuccess (ghPre m s) (ghStart m s) strs m,
           some ⟨ghStart m s, ghSlice L m s, ghPre m s⟩⟩
        | none =>
          match parseStringArray (cleanResp txt.toList) with
          | some strs =>
            ⟨finishSuccess (ghPre m s) (ghStart m s) strs m,
             some ⟨ghStart m s, ghSlice L m s, ghPre m s⟩⟩
          | none =>
            ⟨{ ghPre m s with loading := false, error := some genericErrorMsg },
             some ⟨ghStart m s, ghSlice L m s, ghPre m s⟩⟩ := by
  rw [generateHooks_eq L k (fun _ => .returned (some txt)) fd m s h1 hk, if_neg hne]
  simp only [if_neg htxt]

theorem generateHooksOld_reply (L : List String) (k : String) (fd : FormData)
    (m : Bool) (s : AppState)
    (h1 : ¬ (fd.niche = "" ∨ fd.topic = "")) (hk : apiKeyMissing k = false)
    (hne : ghSlice L m s ≠ []) (txt : String) (htxt : txt ≠ "") :
    generateHooksOld L k (fun _ => .returned (some txt)) fd m s
      = match parseStringArray txt.toList with
        | some strs =>
          ⟨finishSuccess (ghPre m s) (ghStart m s) strs m,
           some ⟨ghStart m s, ghSlice L m s, ghPre m s⟩⟩
        | none =>
          ⟨{ ghPre m s with loading := false, error := some genericErrorMsg },
           some ⟨ghStart m s, ghSlice L m s, ghPre m s⟩⟩ := by
  rw [generateHooksOld_eq L k (fun _ => .returned (some txt)) fd m s h1 hk, if_neg hne]
  simp only [if_neg htxt]

/-- C5 counterexample: for the reply `["a<fence>b"]` whose single element
itself contains the three-backtick marker, the fence-wrapped version
succeeds via the fallback but the global fence stripping also deletes the
marker inside the string content, so the produced hook list differs from
the list produced by the same array unwrapped. -/
theorem c5_parse_fallback_counterexample :
    parseStringArray ("```json\n[\"a```b\"]\n```".toList) = none
    ∧ (generateHooks ["x"] "k" (fun _ => .returned (some "[\"a```b\"]"))
        ⟨"n", "t", ""⟩ false AppState.init).state.generatedHooks
        = [⟨0, 0, "a```b"⟩]
    ∧ (generateHooks ["x"] "k" (fun _ => .returned (some "```json\n[\"a```b\"]\n```"))
        ⟨"n", "t", ""⟩ false AppState.init).state.error = none
    ∧ (generateHooks ["x"] "k" (fun _ => .returned (some "```json\n[\"a```b\"]\n```"))
        ⟨"n", "t", ""⟩ false AppState.init).state.generatedHooks
        = [⟨0, 0, "ab"⟩]
    ∧ ¬ ((generateHooks ["x"] "k" (fun _ => .returned (some "```json\n[\"a```b\"]\n```"))
        ⟨"n", "t", ""⟩ false AppState.init).state.generatedHooks
          = (generateHooks ["x"] "k" (fun _ => .returned (some "[\"a```b\"]"))
        ⟨"n", "t", ""⟩ false AppState.init).state.generatedHooks) := by
  decide

/-- C5 (amended): the workflow parses the reply strictly, applies exactly
one fallback (fence stripping) when strict parsing fails, and surfaces the
generic failure when that also fails; a reply wrapped in a
three-backtick json fence succeeds via the fallback and yields the same
hook list as the unwrapped array, provided the array content itself
contains no backtick (the counterexample shows the global stripping
corrupts content containing the fence marker). -/
theorem c5_parse_fallback (L : List String) (k : String) (fd : FormData)
    (m : Bool) (s : AppState)
    (h1 : fd.niche ≠ "") (h2 : fd.topic ≠ "") (hk : apiKeyMissing k = false)
    (hne : ghSlice L m s ≠ []) :
    (∀ txt strs, txt ≠ "" → parseStringArray txt.toList = some strs →
        generateHooks L k (fun _ => .returned (some txt)) fd m s
          = ⟨finishSuccess (ghPre m s) (ghStart m s) strs m,
             some ⟨ghStart m s, ghSlice L m s, ghPre m s⟩⟩)
    ∧ (∀ txt strs, txt ≠ "" → parseStringArray txt.toList = none →
        parseStringArray (cleanResp txt.toList) = some strs →
        generateHooks L k (fun _ => .returned (some txt)) fd m s
          = ⟨finishSuccess (ghPre m s) (ghStart m s) strs m,
             some ⟨ghStart m s, ghSlice L m s, ghPre m s⟩⟩)
    ∧ (∀ txt, txt ≠ "" → parseStringArray txt.toList = none →
        parseStringArray (cleanResp txt.toList) = none →
        (generateHooks L k (fun _ => .returned (some txt)) fd m s).state.error
          = some genericErrorMsg)
    ∧ (∀ strs, (∀ t ∈ strs, SafeStr t) → (∀ t ∈ strs, '`' ∉ t.toList) →
        generateHooks L k
            (fun _ => .returned (some (String.mk (wrapFence (renderArr strs))))) fd m s
          = generateHooks L k
            (fun _ => .returned (some (String.mk (renderArr strs)))) fd m s
        ∧ (generateHooks L k
            (fun _ => .returned (some (String.mk (wrapFence (renderArr strs))))) fd m s).state
            = finishSuccess (ghPre m s) (ghStart m s) strs m) := by
  have h1' : ¬ (fd.niche = "" ∨ fd.topic = "") := by
    push_neg
    exact ⟨h1, h2⟩
  refine ⟨?_, ?_, ?_, ?_⟩
  · intro txt strs htxt hp
    rw [generateHooks_reply L k fd m s h1' hk hne txt htxt, hp]
  · intro txt strs htxt hp hp2
    rw [generateHooks_reply L k fd m s h1' hk hne txt htxt, hp, hp2]
  · intro txt htxt hp hp2
    rw [generateHooks_reply L k fd m s h1' hk hne txt htxt, hp, hp2]
  · intro strs hsafe hfence
    have hwne : String.mk (wrapFence (renderArr strs)) ≠ "" := by
      intro hcon
      have := congrArg String.data hcon
      simp [wrapFence, fenceJsonPat_eq] at this
    have hune : String.mk (renderArr strs) ≠ "" := by
      intro hcon
      have := congrArg String.data hcon
      cases strs with
      | nil => simp [renderArr] at this
      | cons t ts => simp [renderArr] at this
    have hwl : (String.mk (wrapFence (renderArr strs))).toList
        = wrapFence (renderArr strs) := rfl
    have hul : (String.mk (renderArr strs)).toList = renderArr strs := rfl
    have hparse := parseStringArray_render strs hsafe
    have hwrapnone := parseStringArray_wrapFence (renderArr strs)
    have hclean := cleanResp_wrap_render strs hfence
    have hw := generateHooks_reply L k fd m s h1' hk hne
      (String.mk (wrapFence (renderArr strs))) hwne
    have hu := generateHooks_reply L k fd m s h1' hk hne
      (String.mk (renderArr strs)) hune
    rw [hwl, hwrapnone, hclean, hparse] at hw
    rw [hul, hparse] at hu
    rw [hw, hu]
    exact ⟨rfl, rfl⟩

/-- Witness for C5 at a concrete input. -/
theorem c5_parse_fallback_witness :
    (∀ txt strs, txt ≠ "" → parseStringArray txt.toList = some strs →
        generateHooks ["x"] "k" (fun _ => .returned (some txt)) ⟨"n", "t", ""⟩
            false AppState.init
          = ⟨finishSuccess (ghPre false AppState.init) (ghStart false AppState.init)
               strs false,
             some ⟨ghStart false AppState.init, ghSlice ["x"] false AppState.init,
                   ghPre false AppState.init⟩⟩)
    ∧ (∀ txt strs, txt ≠ "" → parseStringArray txt.toList = none →
        parseStringArray (cleanResp txt.toList) = some strs →
        generateHooks ["x"] "k" (fun _ => .returned (some txt)) ⟨"n", "t", ""⟩
            false AppState.init
          = ⟨finishSuccess (ghPre false AppState.init) (ghStart false AppState.init)
               strs false,
             some ⟨ghStart false AppState.init, ghSlice ["x"] false AppState.init,
                   ghPre false AppState.init⟩⟩)
    ∧ (∀ txt, txt ≠ "" → parseStringArray txt.toList = none →
        parseStringArray (cleanResp txt.toList) = none →
        (generateHooks ["x"] "k" (fun _ => .returned (some txt)) ⟨"n", "t", ""⟩
            false AppState.init).state.error = some genericErrorMsg)
    ∧ (∀ strs, (∀ t ∈ strs, SafeStr t) → (∀ t ∈ strs, '`' ∉ t.toList) →
        generateHooks ["x"] "k"
            (fun _ => .returned (some (String.mk (wrapFence (renderArr strs)))))
            ⟨"n", "t", ""⟩ false AppState.init
          = generateHooks ["x"] "k"
            (fun _ => .returned (some (String.mk (renderArr strs))))
            ⟨"n", "t", ""⟩ false AppState.init
        ∧ (generateHooks ["x"] "k"
            (fun _ => .returned (some (String.mk (wrapFence (renderArr strs)))))
            ⟨"n", "t", ""⟩ false AppState.init).state
            = finishSuccess (ghPre false AppState.init) (ghStart false AppState.init)
                strs false) :=
  c5_parse_fallback ["x"] "k" ⟨"n", "t", ""⟩ false AppState.init
    (by decide) (by decide) (by decide) (by decide)

/-! ### Claim C7 -/

theorem validateEmail_iff (email : String) :
    validateEmail email = true
      ↔ (email.toList.contains '@' = true ∧ email.toList.contains '.' = true) := by
  unfold validateEmail
  simp only [Bool.and_eq_true]
  constructor
  · intro h
    exact ⟨h.1.2, h.2⟩
  · intro h
    refine ⟨⟨?_, h.1⟩, h.2⟩
    have hm : '@' ∈ email.toList := by
      have := h.1
      simpa [List.contains] using this
    rw [bne_iff_ne]
    intro hcon
    subst hcon
    simp at hm

theorem handleLogin_spec (envCodes email code : String) (st : AuthState) :
    handleLogin envCodes email code st
      = if validateEmail email = false then
          ({ st with authError := invalidEmailMsg }, .invalidEmail)
        else if jsTrim code.toList = [] then
          ({ st with authError := missingCodeMsg }, .missingCode)
        else if codeMatches envCodes code = true then
          ({ st with isAuthenticated := true, storedAuth := true, authError := "" }, .success)
        else ({ st with authError := codeMismatchMsg }, .codeMismatch) := by
  rw [handleLogin]
  cases hv : validateEmail email <;> simp [hv]

/-- C7: the access gate fails with InvalidEmail exactly when the email does
not contain both an at-sign and a dot, fails with MissingCode exactly when
the email passes but the code is empty or whitespace-only, fails with
CodeMismatch exactly when the trimmed case-insensitive code matches no
allow-list entry, succeeds otherwise; only the success path sets the
persisted unlock flag or the authenticated flag; and concretely
"  VIP123  " succeeds against configured "vip123" while "bademail" and
"a@b" are rejected as invalid emails. -/
theorem c7_access_gate (envCodes email code : String) (st : AuthState) :
    ((handleLogin envCodes email code st).2 = .invalidEmail
        ↔ ¬ (email.toList.contains '@' = true ∧ email.toList.contains '.' = true))
    ∧ ((handleLogin envCodes email code st).2 = .missingCode
        ↔ (validateEmail email = true ∧ jsTrim code.toList = []))
    ∧ ((handleLogin envCodes email code st).2 = .codeMismatch
        ↔ (validateEmail email = true ∧ jsTrim code.toList ≠ []
            ∧ codeMatches envCodes code = false))
    ∧ ((handleLogin envCodes email code st).2 = .success
        ↔ (validateEmail email = true ∧ jsTrim code.toList ≠ []
            ∧ codeMatches envCodes code = true))
    ∧ (handleLogin envCodes email code st).1.storedAuth
        = (if (handleLogin envCodes email code st).2 = .success then true
           else st.storedAuth)
    ∧ (handleLogin envCodes email code st).1.isAuthenticated
        = (if (handleLogin envCodes email code st).2 = .success then true
           else st.isAuthenticated)
    ∧ (handleLogin "vip123" "user@mail.com" "  VIP123  " st).2 = .success
    ∧ (handleLogin "vip123" "bademail" "vip123" st).2 = .invalidEmail
    ∧ (handleLogin "vip123" "a@b" "vip123" st).2 = .invalidEmail := by
  have hconc1 : (handleLogin "vip123" "user@mail.com" "  VIP123  " st).2 = .success := by
    rw [handleLogin_spec, if_neg (by decide), if_neg (by decide), if_pos (by decide)]
  have hconc2 : (handleLogin "vip123" "bademail" "vip123" st).2 = .invalidEmail := by
    rw [handleLogin_spec, if_pos (by decide)]
  have hconc3 : (handleLogin "vip123" "a@b" "vip123" st).2 = .invalidEmail := by
    rw [handleLogin_spec, if_pos (by decide)]
  by_cases hv : validateEmail email = false
  · have hnc : ¬ (email.toList.contains '@' = true ∧ email.toList.contains '.' = true) := by
      intro hcc
      rw [(validateEmail_iff email).mpr hcc] at hv
      exact absurd hv (by decide)
    have hres : handleLogin envCodes email code st
        = ({ st with authError := invalidEmailMsg }, .invalidEmail) := by
      rw [handleLogin_spec, if_pos hv]
    rw [hres]
    exact ⟨iff_of_true rfl hnc,
      iff_of_false (fun h => nomatch h) (fun hcc => by rw [hcc.1] at hv; exact absurd hv (by decide)),
      iff_of_false (fun h => nomatch h) (fun hcc => by rw [hcc.1] at hv; exact absurd hv (by decide)),
      iff_of_false (fun h => nomatch h) (fun hcc => by rw [hcc.1] at hv; exact absurd hv (by decide)),
      by rw [if_neg (fun h => nomatch h)],
      by rw [if_neg (fun h => nomatch h)],
      hconc1, hconc2, hconc3⟩
  · have hv' : validateEmail email = true := by
      revert hv
      cases validateEmail email <;> simp
    obtain ⟨ha, hd⟩ := (validateEmail_iff email).mp hv'
    have hnv : ¬ (validateEmail email = false) := by
      rw [hv']
      decide
    by_cases hcode : jsTrim code.toList = []
    · have hres : handleLogin envCodes email code st
          = ({ st with authError := missingCodeMsg }, .missingCode) := by
        rw [handleLogin_spec, if_neg hnv, if_pos hcode]
      rw [hres]
      exact ⟨iff_of_false (fun h => nomatch h) (fun hno => hno ⟨ha, hd⟩),
        iff_of_true rfl ⟨hv', hcode⟩,
        iff_of_false (fun h => nomatch h) (fun hcc => hcc.2.1 hcode),
        iff_of_false (fun h => nomatch h) (fun hcc => hcc.2.1 hcode),
        by rw [if_neg (fun h => nomatch h)],
        by rw [if_neg (fun h => nomatch h)],
        hconc1, hconc2, hconc3⟩
    · by_cases hm : codeMatches envCodes code = true
      · have hres : handleLogin envCodes email code st
            = ({ st with isAuthenticated := true, storedAuth := true, authError := "" },
               .success) := by
          rw [handleLogin_spec, if_neg hnv, if_neg hcode, if_pos hm]
        rw [hres]
        exact ⟨iff_of_false (fun h => nomatch h) (fun hno => hno ⟨ha, hd⟩),
          iff_of_false (fun h => nomatch h) (fun hcc => hcode hcc.2),
          iff_of_false (fun h => nomatch h)
            (fun hcc => by rw [hm] at hcc; exact absurd hcc.2.2 (by decide)),
          iff_of_true rfl ⟨hv', hcode, hm⟩,
          by rw [if_pos rfl],
          by rw [if_pos rfl],
          hconc1, hconc2, hconc3⟩
      · have hm' : codeMatches envCodes code = false := by
          revert hm
          cases codeMatches envCodes code <;> simp
        have hres : handleLogin envCodes email code st
            = ({ st with authError := codeMismatchMsg }, .codeMismatch) := by
          rw [handleLogin_spec, if_neg hnv, if_neg hcode, if_neg hm]
        rw [hres]
        exact ⟨iff_of_false (fun h => nomatch h) (fun hno => hno ⟨ha, hd⟩),
          iff_of_false (fun h => nomatch h) (fun hcc => hcode hcc.2),
          iff_of_true rfl ⟨hv', hcode, hm'⟩,
          iff_of_false (fun h => nomatch h)
            (fun hcc => by rw [hm'] at hcc; exact absurd hcc.2.2 (by decide)),
          by rw [if_neg (fun h => nomatch h)],
          by rw [if_neg (fun h => nomatch h)],
          hconc1, hconc2, hconc3⟩

/-! ### Claim C9 -/

/-- The service-call outcomes on which the operation fails after the
external call was initiated: a thrown error, a missing or empty reply
text, or a reply that parses neither strictly nor after the fallback. -/
def FailingOutcome (o : CallResult) : Prop :=
  (∃ msg, o = .thrown msg) ∨ o = .returned none ∨ o = .returned (some "")
  ∨ (∃ txt, o = .returned (some txt) ∧ txt ≠ ""
      ∧ parseStringArray txt.toList = none
      ∧ parseStringArray (cleanResp txt.toList) = none)

/-- C9: a failing Fresh call is not atomic — the prior results are cleared
and the batch index reset before the external call, so when the call or
parsing fails the operation ends with empty results, batch index 0,
loading cleared and an error set; by contrast a credential-lookup failure
(missing API key) happens before the reset and leaves results and batch
index intact in either mode. -/
theorem c9_fresh_not_atomic (L : List String) (k : String) (fd : FormData)
    (s : AppState) (o : CallResult)
    (h1 : fd.niche ≠ "") (h2 : fd.topic ≠ "") (hk : apiKeyMissing k = false)
    (hL : L ≠ []) (hfail : FailingOutcome o) :
    ((generateHooks L k (fun _ => o) fd false s).state.generatedHooks = []
     ∧ (generateHooks L k (fun _ => o) fd false s).state.batchIndex = 0
     ∧ (generateHooks L k (fun _ => o) fd false s).state.loading = false
     ∧ ∃ msg, (generateHooks L k (fun _ => o) fd false s).state.error = some msg)
    ∧ (∀ (k2 : String) (svc2 : List String → CallResult) (m2 : Bool),
        apiKeyMissing k2 = true →
        (generateHooks L k2 svc2 fd m2 s).state.generatedHooks = s.generatedHooks
        ∧ (generateHooks L k2 svc2 fd m2 s).state.batchIndex = s.batchIndex) := by
  have h1' : ¬ (fd.niche = "" ∨ fd.topic = "") := by
    push_neg
    exact ⟨h1, h2⟩
  constructor
  · have hne : ghSlice L false s ≠ [] := by
      rw [Ne, ghSlice_eq_nil_iff, ghStart_false]
      intro hle
      exact hL (List.length_eq_zero.mp (Nat.le_zero.mp hle))
    rw [generateHooks_eq L k (fun _ => o) fd false s h1' hk, if_neg hne]
    rcases hfail with ⟨msg, rfl⟩ | rfl | rfl | ⟨txt, rfl, htxt, hp, hp2⟩
    · exact ⟨rfl, rfl, rfl, _, rfl⟩
    · exact ⟨rfl, rfl, rfl, _, rfl⟩
    · exact ⟨rfl, rfl, rfl, _, rfl⟩
    · have hp' : parseStringArray txt.data = none := hp
      have hp2' : parseStringArray (cleanResp txt.data) = none := hp2
      simp [htxt, hp, hp2, hp', hp2']
      exact ⟨rfl, rfl⟩
  · intro k2 svc2 m2 hk2
    rw [generateHooks_keyMissing L k2 svc2 fd m2 s h1' hk2]
    exact ⟨rfl, rfl⟩

/-- Witness for C9 at a concrete thrown error. -/
theorem c9_fresh_not_atomic_witness :
    ((generateHooks ["a"] "k" (fun _ => .thrown "boom") ⟨"n", "t", ""⟩ false
        ⟨[⟨0, 0, "old"⟩], false, none, 3⟩).state.generatedHooks = []
     ∧ (generateHooks ["a"] "k" (fun _ => .thrown "boom") ⟨"n", "t", ""⟩ false
        ⟨[⟨0, 0, "old"⟩], false, none, 3⟩).state.batchIndex = 0
     ∧ (generateHooks ["a"] "k" (fun _ => .thrown "boom") ⟨"n", "t", ""⟩ false
        ⟨[⟨0, 0, "old"⟩], false, none, 3⟩).state.loading = false
     ∧ ∃ msg, (generateHooks ["a"] "k" (fun _ => .thrown "boom") ⟨"n", "t", ""⟩ false
        ⟨[⟨0, 0, "old"⟩], false, none, 3⟩).state.error = some msg)
    ∧ (∀ (k2 : String) (svc2 : List String → CallResult) (m2 : Bool),
        apiKeyMissing k2 = true →
        (generateHooks ["a"] k2 svc2 ⟨"n", "t", ""⟩ m2
            ⟨[⟨0, 0, "old"⟩], false, none, 3⟩).state.generatedHooks
          = (⟨[⟨0, 0, "old"⟩], false, none, 3⟩ : AppState).generatedHooks
        ∧ (generateHooks ["a"] k2 svc2 ⟨"n", "t", ""⟩ m2
            ⟨[⟨0, 0, "old"⟩], false, none, 3⟩).state.batchIndex
          = (⟨[⟨0, 0, "old"⟩], false, none, 3⟩ : AppState).batchIndex) :=
  c9_fresh_not_atomic ["a"] "k" ⟨"n", "t", ""⟩ ⟨[⟨0, 0, "old"⟩], false, none, 3⟩
    (.thrown "boom") (by decide) (by decide) (by decide) (by decide)
    (Or.inl ⟨"boom", rfl⟩)

/-! ### Claim C10 -/

/-- C10: on any reply text, the current workflow and the older variant in
part_001 agree whenever the text strictly parses as a JSON array of
strings (identical hook lists and state updates in both modes), and also
when both the strict parse and the fallback fail (same generic failure);
they differ exactly on replies needing the fence-stripping fallback, where
the current workflow succeeds and the older variant fails. -/
theorem c10_variant_equivalence (L : List String) (k : String) (fd : FormData)
    (m : Bool) (s : AppState) (txt : String)
    (h1 : fd.niche ≠ "") (h2 : fd.topic ≠ "") (hk : apiKeyMissing k = false)
    (hne : ghSlice L m s ≠ []) (htxt : txt ≠ "") :
    (∀ strs, parseStringArray txt.toList = some strs →
        generateHooksOld L k (fun _ => .returned (some txt)) fd m s
          = generateHooks L k (fun _ => .returned (some txt)) fd m s)
    ∧ (parseStringArray txt.toList = none →
        parseStringArray (cleanResp txt.toList) = none →
        generateHooksOld L k (fun _ => .returned (some txt)) fd m s
          = generateHooks L k (fun _ => .returned (some txt)) fd m s)
    ∧ (∀ strs, parseStringArray txt.toList = none →
        parseStringArray (cleanResp txt.toList) = some strs →
        (generateHooks L k (fun _ => .returned (some txt)) fd m s).state
            = finishSuccess (ghPre m s) (ghStart m s) strs m
        ∧ (generateHooksOld L k (fun _ => .returned (some txt)) fd m s).state
            = { ghPre m s with loading := false, error := some genericErrorMsg }) := by
  have h1' : ¬ (fd.niche = "" ∨ fd.topic = "") := by
    push_neg
    exact ⟨h1, h2⟩
  have hnew := generateHooks_reply L k fd m s h1' hk hne txt htxt
  have hold := generateHooksOld_reply L k fd m s h1' hk hne txt htxt
  refine ⟨?_, ?_, ?_⟩
  · intro strs hp
    rw [hp] at hnew hold
    rw [hnew, hold]
  · intro hp hp2
    rw [hp] at hnew hold
    rw [hp2] at hnew
    rw [hnew, hold]
  · intro strs hp hp2
    rw [hp] at hnew hold
    rw [hp2] at hnew
    rw [hnew, hold]
    exact ⟨rfl, rfl⟩

/-- Witness for C10 at a concrete input. -/
theorem c10_variant_equivalence_witness :
    (∀ strs, parseStringArray ("[\"a\"]" : String).toList = some strs →
        generateHooksOld ["x"] "k" (fun _ => .returned (some "[\"a\"]"))
            ⟨"n", "t", ""⟩ false AppState.init
          = generateHooks ["x"] "k" (fun _ => .returned (some "[\"a\"]"))
            ⟨"n", "t", ""⟩ false AppState.init)
    ∧ (parseStringArray ("[\"a\"]" : String).toList = none →
        parseStringArray (cleanResp ("[\"a\"]" : String).toList) = none →
        generateHooksOld ["x"] "k" (fun _ => .returned (some "[\"a\"]"))
            ⟨"n", "t", ""⟩ false AppState.init
          = generateHooks ["x"] "k" (fun _ => .returned (some "[\"a\"]"))
            ⟨"n", "t", ""⟩ false AppState.init)
    ∧ (∀ strs, parseStringArray ("[\"a\"]" : String).toList = none →
        parseStringArray (cleanResp ("[\"a\"]" : String).toList) = some strs →
        (generateHooks ["x"] "k" (fun _ => .returned (some "[\"a\"]"))
            ⟨"n", "t", ""⟩ false AppState.init).state
            = finishSuccess (ghPre false AppState.init) (ghStart false AppState.init)
                strs false
        ∧ (generateHooksOld ["x"] "k" (fun _ => .returned (some "[\"a\"]"))
            ⟨"n", "t", ""⟩ false AppState.init).state
            = { ghPre false AppState.init with loading := false, error := some genericErrorMsg }) :=
  c10_variant_equivalence ["x"] "k" ⟨"n", "t", ""⟩ false AppState.init "[\"a\"]"
    (by decide) (by decide) (by decide) (by decide) (by decide)

end HookGen
